import Mathlib

/-!
Shallow embedding of the soldr field-validation engine (package `soldr`,
file `soldr.go`) together with the collaborating types it uses (field
processor, policy manager, fault model).  The collaborators are not part of
the sources at hand, so they are modelled from the specification; every such
definition says so in its doc comment.  The orchestration code (`Subject`,
its builder methods, `isZero`, `isFieldSet`, `getPathsFromMask`,
`isFieldInMask`, `init`, `onSuccess`, `postValidation`, `err`, `Evaluate`)
is translated directly from `soldr.go`.

Conventions of the embedding:
* Go `error` values are modelled by their message `String`; a nil-able
  `error` result is `Option Err`.
* A Go `interface\x7b\x7d` argument to the assertion builders is modelled by
  `GoValue` (nil, string, int, bool, or a possibly-nil message reference),
  which is exactly the shape `isZero` inspects.
* Go `context.Context` is an opaque token `GoCtx`.
* The map `map[string]error` returned by the policy manager is modelled by
  an association list with distinct keys built in declaration order; the
  nondeterministic order in which the Go runtime ranges over that map is
  modelled by an explicit `iter` argument to `EvaluateWith` (see there).
* A method call on the nil `FaultHandler` interface panics in Go; the
  evaluation result type `EvalResult` therefore distinguishes a panic from
  a returned `error`.
-/

namespace Soldr

/-- A Go `interface\x7b\x7d` value handed to the assertion builders: nil, a
scalar, or a (possibly nil) pointer to a message. -/
inductive GoValue where
  | nil : GoValue
  | str : String → GoValue
  | int : Int → GoValue
  | boolv : Bool → GoValue
  | msgRef : Bool → GoValue
deriving DecidableEq, Repr

/-- `isZero` from `soldr.go`: `i == nil || reflect.ValueOf(i).IsZero()`.
A nil interface is zero; otherwise reflection zero-ness per type: empty
string, 0, false, nil pointer. -/
def isZero : GoValue → Bool
  | .nil => true
  | .str s => s == ""
  | .int n => n == 0
  | .boolv b => b == false
  | .msgRef isNil => isNil

/-- Modelled from the spec: the structured message is an external
collaborator, the engine only needs field-by-name read access and a notion
of default value per field.  A field holds a scalar or a possibly-absent
nested message. -/
inductive FieldEntry where
  | str : String → FieldEntry
  | int : Int → FieldEntry
  | boolv : Bool → FieldEntry
  | sub : Option (List (String × FieldEntry)) → FieldEntry

/-- A message is a record of named fields. -/
abbrev Msg := List (String × FieldEntry)

/-- Field-by-name lookup on a message. -/
def lookupField (name : String) : Msg → Option FieldEntry
  | [] => none
  | (n, v) :: rest => if n == name then some v else lookupField name rest

/-- Modelled from the spec: a scalar is zero per its type default (empty
string, 0, false); a message-typed field is zero iff it is unset/nil. -/
def entryIsZero : FieldEntry → Bool
  | .str s => s == ""
  | .int n => n == 0
  | .boolv b => b == false
  | .sub m => m.isNone

/-- Modelled from the spec: walk the path segment by segment; a segment that
does not name a real field, or whose parent is absent, resolves to not-set;
the terminal field is set iff its current value is not the type default. -/
def resolveSegs : Msg → List String → Bool
  | _, [] => false
  | m, [seg] =>
    match lookupField seg m with
    | none => false
    | some v => !(entryIsZero v)
  | m, seg :: rest =>
    match lookupField seg m with
    | some (.sub (some m2)) => resolveSegs m2 rest
    | _ => false

/-- Helper for `splitPath`: split a character list at every dot, the
accumulator holding the current segment reversed. -/
def splitSegsAux (acc : List Char) : List Char → List (List Char)
  | [] => [acc.reverse]
  | c :: cs =>
    if c == '.' then acc.reverse :: splitSegsAux [] cs
    else splitSegsAux (c :: acc) cs

/-- Modelled from the spec: split a dot-separated path into its segments
(the behaviour of splitting on the separator dot). -/
def splitPath (path : String) : List String :=
  (splitSegsAux [] path.data).map String.mk

/-- Modelled from the spec: the path resolver (`fieldProcessor`, not under
the sources at hand) — given a dot-separated path and a root message,
report whether the addressed field currently holds a non-default value. -/
def fieldProcessorIsFieldSet (path : String) (m : Msg) : Bool :=
  resolveSegs m (splitPath path)

/-- Go `context.Context`, opaque to the engine. -/
abbrev GoCtx := Nat

/-- A Go `error` modelled by its message. -/
abbrev Err := String

/-- `Action[T]`: a custom action `func(ctx, T) error` (hooks and custom
policy effects).  Pure in this embedding; the claims under study do not
involve message mutation. -/
abbrev Action := GoCtx → Msg → Option Err

/-- Modelled from the spec: a fault record — field path (empty for
request-scoped faults) and the underlying failure. -/
structure Fault where
  field : String
  err : Err
deriving DecidableEq, Repr

/-- Modelled from the spec: request-scoped fault constructor (from the
pre-validation or success hooks, unassociated with a path). -/
def RequestFault (e : Err) : Fault := ⟨"", e⟩

/-- Modelled from the spec: field-scoped fault constructor (from a failed
policy, attributed to the declaring path). -/
def FieldFault (path : String) (e : Err) : Fault := ⟨path, e⟩

/-- The `FaultHandler` interface: turn a collection of faults into a single
(nil-able) error value. -/
abbrev FaultHandler := List Fault → Option Err

/-- Modelled from the spec: the default fault handler concatenates every
fault as `path: message` into one combined error (always a non-nil error). -/
def defaultFaultHandler : FaultHandler := fun fs =>
  some (String.intercalate "; " (fs.map (fun f => f.field ++ ": " ++ f.err)))

/-- `prevalErr` from `soldr.go`. -/
def prevalErr : String := "the message failed prevalidation"

/-- `postValErr` from `soldr.go`. -/
def postValErr : String := "the message failed postvalidation"

/-- Modelled from the spec: the Field value object — path, optionally
supplied value (nil for custom-action rules), mask membership, and measured
presence captured at declaration time. -/
structure Field where
  path : String
  value : GoValue
  inMask : Bool
  isSet : Bool

/-- `NewField` constructor. -/
def NewField (path : String) (value : GoValue) (inMask : Bool) (isSet : Bool) : Field :=
  ⟨path, value, inMask, isSet⟩

/-- Modelled from the spec: the two supported trigger conditions, passed in
the source as the method values `field.MustBeSet` and
`field.MustBeSetIfInMask`. -/
inductive Trigger where
  | mustBeSet : Trigger
  | mustBeSetIfInMask : Trigger
deriving DecidableEq, Repr

/-- Modelled from the spec: `MustBeSet` always triggers;
`MustBeSetIfInMask` triggers only when the field is in the mask.  Evaluated
from the Field state captured at declaration time. -/
def Trigger.holds : Trigger → Field → Bool
  | .mustBeSet, _ => true
  | .mustBeSetIfInMask, f => f.inMask

/-- Modelled from the spec: a trait policy binds a Field to a trigger
condition and the built-in not-zero assertion (`NotZeroTrait` is the only
trait, so it carries no data here). -/
structure TraitPolicy where
  trigger : Trigger
  field : Field

/-- `NewPolicy` constructor (the `NotZeroTrait()` argument of the source is
the unique trait and is left implicit). -/
def NewPolicy (trigger : Trigger) (field : Field) : TraitPolicy :=
  ⟨trigger, field⟩

/-- Modelled from the spec: an action policy binds a Field to a trigger
condition and a custom callable taking the whole message. -/
structure ActionPolicy where
  trigger : Trigger
  field : Field
  action : Action

/-- `NewActionPolicy` constructor. -/
def NewActionPolicy (trigger : Trigger) (field : Field) (action : Action) : ActionPolicy :=
  ⟨trigger, field, action⟩

/-- Modelled from the spec: the policy manager owns two ordered collections
of policies. -/
structure PolicyManager where
  traitPolicies : List TraitPolicy
  actionPolicies : List ActionPolicy

/-- `NewPolicyManager`. -/
def NewPolicyManager : PolicyManager := ⟨[], []⟩

/-- Append a trait policy, keeping declaration order. -/
def PolicyManager.AddTraitPolicy (pm : PolicyManager) (p : TraitPolicy) : PolicyManager :=
  { pm with traitPolicies := pm.traitPolicies ++ [p] }

/-- Append an action policy, keeping declaration order. -/
def PolicyManager.AddActionPolicy (pm : PolicyManager) (p : ActionPolicy) : PolicyManager :=
  { pm with actionPolicies := pm.actionPolicies ++ [p] }

/-- The `map[string]error` produced by policy execution, modelled by an
association list whose keys are kept distinct by `mapInsert`; the list
order is the insertion order (the range order over the Go map is a separate
input, see `Subject.EvaluateWith`). -/
abbrev FaultMap := List (String × Err)

/-- Insert into the fault map, overwriting any previous binding for the
path (last writer wins, as for a Go map assignment). -/
def mapInsert (m : FaultMap) (k : String) (v : Err) : FaultMap :=
  (m.filter (fun kv => kv.1 != k)) ++ [(k, v)]

/-- Result of `ExecuteAllPolicies`: the fault map plus, for the purpose of
stating execution properties, the trace of the policies that were
evaluated, in evaluation order (one entry per declared policy, recorded
whether or not the policy triggered or faulted). -/
structure ExecResult where
  faults : FaultMap
  trace : List String

/-- Modelled from the spec: executing one trait policy — if its trigger
condition holds and the field is not set, record a generic prevalidation
fault at the path; otherwise leave the map unchanged. -/
def execTraitPolicy (m : FaultMap) (p : TraitPolicy) : FaultMap :=
  if p.trigger.holds p.field && !p.field.isSet then
    mapInsert m p.field.path prevalErr
  else m

/-- Modelled from the spec: executing one action policy — if its trigger
condition holds, invoke the bound action with (context, message) and record
any returned failure at the path; otherwise leave the map unchanged. -/
def execActionPolicy (ctx : GoCtx) (msg : Msg) (m : FaultMap) (p : ActionPolicy) : FaultMap :=
  if p.trigger.holds p.field then
    match p.action ctx msg with
    | some e => mapInsert m p.field.path e
    | none => m
  else m

/-- Modelled from the spec: `ExecuteAllPolicies` runs every declared policy
(trait policies first, then action policies, each collection in declaration
order) and returns the mapping from field path to fault.  The trace records
each policy as it is evaluated. -/
def PolicyManager.ExecuteAllPolicies (pm : PolicyManager) (ctx : GoCtx) (msg : Msg) :
    ExecResult :=
  let s1 := pm.traitPolicies.foldl
    (fun acc p => (execTraitPolicy acc.1 p, acc.2 ++ [p.field.path]))
    (([] : FaultMap), ([] : List String))
  let s2 := pm.actionPolicies.foldl
    (fun acc p => (execActionPolicy ctx msg acc.1 p, acc.2 ++ [p.field.path])) s1
  { faults := s2.1, trace := s2.2 }

/-- The `Subject` aggregate root of `soldr.go`.  The stateless
`fieldProcessor` helper is carried as the resolver function itself. -/
structure Subject where
  initAction : Option Action
  successAction : Option Action
  postAction : Option Action
  pm : PolicyManager
  fh : Option FaultHandler
  paths : Option (List String)
  fieldProcessor : String → Msg → Bool
  message : Msg

/-- `getPathsFromMask` from `soldr.go`: nil when the mask is absent or
empty, otherwise the set of supplied paths (the Go `map[string]struct\x7b\x7d`
is modelled by its key list, which has the same membership). -/
def getPathsFromMask (fieldMask : List String) : Option (List String) :=
  if fieldMask.isEmpty then none else some fieldMask

/-- `ForSubject` from `soldr.go`: fresh Subject for a message plus optional
mask paths (a Go call with no variadic arguments passes the empty list). -/
def ForSubject (subject : Msg) (fieldMask : List String) : Subject :=
  { initAction := none
    successAction := none
    postAction := none
    pm := NewPolicyManager
    fh := none
    paths := getPathsFromMask fieldMask
    fieldProcessor := fieldProcessorIsFieldSet
    message := subject }

/-- `isFieldInMask` from `soldr.go`. -/
def Subject.isFieldInMask (s : Subject) (path : String) : Bool :=
  match s.paths with
  | none => false
  | some ps => ps.contains path

/-- `isFieldSet` from `soldr.go`, translated verbatim: for an action there
is no value, so presence comes from the field processor; otherwise the
value is checked first, and the processor is only consulted when the value
is non-zero.  (Note the source returns `ifs`, which is `isZero i`, in the
zero branch.) -/
def Subject.isFieldSet (p : Subject) (i : GoValue) (path : String) (isForAction : Bool) : Bool :=
  if isForAction then
    p.fieldProcessor path p.message
  else
    let ifs := isZero i
    if !ifs then
      p.fieldProcessor path p.message
    else ifs

/-- `AssertNonZero` from `soldr.go`. -/
def Subject.AssertNonZero (p : Subject) (path : String) (value : GoValue) : Subject :=
  let inMask := p.isFieldInMask path
  let field := NewField path value inMask (p.isFieldSet value path false)
  let traitPolicy := NewPolicy .mustBeSet field
  { p with pm := p.pm.AddTraitPolicy traitPolicy }

/-- `AssertNonZeroWhenInMask` from `soldr.go`. -/
def Subject.AssertNonZeroWhenInMask (p : Subject) (path : String) (value : GoValue) : Subject :=
  let inMask := p.isFieldInMask path
  let field := NewField path value inMask (p.isFieldSet value path false)
  let traitPolicy := NewPolicy .mustBeSetIfInMask field
  { p with pm := p.pm.AddTraitPolicy traitPolicy }

/-- `AssertCustom` from `soldr.go`. -/
def Subject.AssertCustom (p : Subject) (path : String) (action : Action) : Subject :=
  let inMask := p.isFieldInMask path
  let field := NewField path .nil inMask (p.isFieldSet .nil path true)
  let actionPolicy := NewActionPolicy .mustBeSet field action
  { p with pm := p.pm.AddActionPolicy actionPolicy }

/-- `AssertCustomWhenInMask` from `soldr.go`. -/
def Subject.AssertCustomWhenInMask (p : Subject) (path : String) (action : Action) : Subject :=
  let inMask := p.isFieldInMask path
  let field := NewField path .nil inMask (p.isFieldSet .nil path true)
  let actionPolicy := NewActionPolicy .mustBeSetIfInMask field action
  { p with pm := p.pm.AddActionPolicy actionPolicy }

/-- `BeforeValidation` from `soldr.go`. -/
def Subject.BeforeValidation (p : Subject) (act : Action) : Subject :=
  { p with initAction := some act }

/-- `OnSuccess` from `soldr.go`. -/
def Subject.OnSuccess (p : Subject) (act : Action) : Subject :=
  { p with successAction := some act }

/-- `CustomFaultHandler` from `soldr.go`. -/
def Subject.CustomFaultHandler (s : Subject) (e : FaultHandler) : Subject :=
  { s with fh := some e }

/-- `init` from `soldr.go`: run the pre-validation hook if set; wrap a
failure as a request-scoped fault. -/
def Subject.init (s : Subject) (ctx : GoCtx) : Option Fault :=
  match s.initAction with
  | none => none
  | some a =>
    match a ctx s.message with
    | none => none
    | some e => some (RequestFault e)

/-- `onSuccess` from `soldr.go`: run the success hook if set; wrap a
failure as a request-scoped fault. -/
def Subject.onSuccess (s : Subject) (ctx : GoCtx) : Option Fault :=
  match s.successAction with
  | none => none
  | some a =>
    match a ctx s.message with
    | none => none
    | some e => some (RequestFault e)

/-- `postValidation` from `soldr.go`: run the post hook if set; wrap a
failure as a request-scoped fault.  (Defined in the source but never called
from `Evaluate`.) -/
def Subject.postValidation (s : Subject) (ctx : GoCtx) : Option Fault :=
  match s.postAction with
  | none => none
  | some a =>
    match a ctx s.message with
    | none => none
    | some e => some (RequestFault e)

/-- `err` from `soldr.go`: install the default fault handler if none is
set, return nil for an empty collection, otherwise hand the whole
collection to the handler. -/
def Subject.err (s : Subject) (f : List Fault) : Option Err :=
  let fh := s.fh.getD defaultFaultHandler
  if f.length = 0 then none else fh f

/-- Outcome of one `Evaluate` call: either the Go code panicked (method
call on the nil `FaultHandler` interface) or it returned a nil-able error. -/
inductive EvalResult where
  | panicked : EvalResult
  | ok : Option Err → EvalResult
deriving DecidableEq, Repr

/-- `Evaluate` from `soldr.go`, with the Go map range order made explicit:
`iter` is the arrangement in which the runtime ranges over the fault map
(any permutation of its entries; the runtime chooses one
nondeterministically per call).  Note the early return on a pre-validation
failure calls `s.fh.ToError` directly — on the nil interface this panics —
bypassing the lazy default-handler installation in `err`. -/
def Subject.EvaluateWith (s : Subject) (ctx : GoCtx) (iter : FaultMap → FaultMap) :
    EvalResult :=
  match s.init ctx with
  | some fault =>
    match s.fh with
    | none => .panicked
    | some h => .ok (h [fault])
  | none =>
    let allFaults := (s.pm.ExecuteAllPolicies ctx s.message).faults
    let faults := (iter allFaults).map (fun kv => FieldFault kv.1 kv.2)
    let faults :=
      if faults.isEmpty then
        match s.onSuccess ctx with
        | some sf => [sf]
        | none => []
      else faults
    .ok (s.err faults)

/-- `Evaluate` under one admissible range order (the identity arrangement). -/
def Subject.Evaluate (s : Subject) (ctx : GoCtx) : EvalResult :=
  s.EvaluateWith ctx id

/-- `E` from `soldr.go`, shorthand for `Evaluate`. -/
def Subject.E (s : Subject) (ctx : GoCtx) : EvalResult :=
  s.Evaluate ctx

/-- The list of faults handed to the fault handler on the non-short-circuit
path of `Evaluate` (field faults in range order, or the success-hook fault
when no field fault occurred). -/
def Subject.collectedFaults (s : Subject) (ctx : GoCtx) (iter : FaultMap → FaultMap) :
    List Fault :=
  let allFaults := (s.pm.ExecuteAllPolicies ctx s.message).faults
  let faults := (iter allFaults).map (fun kv => FieldFault kv.1 kv.2)
  if faults.isEmpty then
    match s.onSuccess ctx with
    | some sf => [sf]
    | none => []
  else faults

/-- Subject with a failing pre-validation hook and no custom fault handler,
used to exhibit the early-return behaviour of `Evaluate`. -/
def c2Subject : Subject :=
  (ForSubject [] []).BeforeValidation (fun _ _ => some "unauthorized")

/-- Another Subject with a failing pre-validation hook and no custom fault
handler. -/
def c4Subject : Subject :=
  (ForSubject [] []).BeforeValidation (fun _ _ => some "boom")

/-- Subject with one field fault: the supplied value is non-zero, so the
resolver is consulted, and the path does not exist on the empty message. -/
def c4WitnessSubject : Subject :=
  (ForSubject [] []).AssertNonZero "a" (.str "x")

/-- Subject whose field policies produce no fault and whose success hook
fails. -/
def c5WitnessSubject : Subject :=
  (ForSubject [] []).OnSuccess (fun _ _ => some "oops")

/-- Subject collecting two field faults on distinct paths. -/
def c7Subject : Subject :=
  ((ForSubject [] []).AssertNonZero "a" (.str "x")).AssertNonZero "b" (.str "y")

lemma evaluateWith_eq_of_init_eq_none (s : Subject) (ctx : GoCtx)
    (iter : FaultMap → FaultMap) (h : s.init ctx = none) :
    s.EvaluateWith ctx iter = .ok (s.err (s.collectedFaults ctx iter)) := by
  unfold Subject.EvaluateWith Subject.collectedFaults
  rw [h]

lemma err_eq_none_iff (s : Subject) (hfh : s.fh = none) (f : List Fault) :
    s.err f = none ↔ f = [] := by
  unfold Subject.err
  rw [hfh]
  by_cases h : f.length = 0
  · simp [h, List.length_eq_zero.mp h]
  · simp only [h, if_false, Option.getD_none, defaultFaultHandler]
    constructor
    · intro hc
      exact absurd hc (by simp)
    · intro hf
      exact absurd (by simp [hf]) h

lemma foldl_faults_trace {α β : Type} (f : FaultMap → α → FaultMap) (g : α → β)
    (l : List α) (m : FaultMap) (t : List β) :
    l.foldl (fun acc p => (f acc.1 p, acc.2 ++ [g p])) (m, t) =
      (l.foldl f m, t ++ l.map g) := by
  induction l generalizing m t with
  | nil => simp
  | cons a as ih => simp [ih]

/-- C1: the claim states that a declaration via `AssertNonZero` or
`AssertNonZeroWhenInMask` whose supplied value is zero/nil records the
presence as not-set without consulting the resolver.  Evaluating the code
at such declarations, for every resolver `fp` (which shows the resolver is
indeed never consulted): the recorded presence `isSet` is `true` (set), not
not-set — `isFieldSet` returns `isZero i` itself in its zero branch. -/
theorem assertNonZero_zero_value_recorded_as_set :
    ∀ fp : String → Msg → Bool, ∀ m : Msg, ∀ path : String,
      (({ ForSubject m [path] with fieldProcessor := fp }).AssertNonZero path
          (.str "")).pm.traitPolicies.map (fun (p : TraitPolicy) => p.field.isSet) = [true] ∧
      (({ ForSubject m [path] with fieldProcessor := fp }).AssertNonZeroWhenInMask path
          .nil).pm.traitPolicies.map (fun (p : TraitPolicy) => p.field.isSet) = [true] ∧
      ({ ForSubject m [path] with fieldProcessor := fp }).isFieldSet (.str "") path false
        = true :=
  fun _ _ _ => ⟨rfl, rfl, rfl⟩

/-- C2: the claim states that a failing `BeforeValidation` hook makes
`Evaluate` skip every field policy and return a single request-scoped error
via the fault handler.  The short-circuit does hold — the policy manager is
never consulted, and with any handler installed the result is the handler
applied to exactly the one request-scoped fault — but with no custom
handler set (the default configuration) the early return calls `ToError` on
the nil handler interface and panics, bypassing the lazy default-handler
installation in `err`. -/
theorem beforeValidation_failure_nil_handler_panics :
    c2Subject.EvaluateWith 0 id = .panicked ∧
    (∀ pm2 : PolicyManager, ∀ iter : FaultMap → FaultMap,
      ({ c2Subject with pm := pm2 }).EvaluateWith 0 iter = .panicked) ∧
    (∀ h : FaultHandler, ∀ pm2 : PolicyManager, ∀ iter : FaultMap → FaultMap,
      ({ c2Subject.CustomFaultHandler h with pm := pm2 }).EvaluateWith 0 iter
        = .ok (h [RequestFault "unauthorized"])) :=
  ⟨rfl, fun _ _ => rfl, fun _ _ _ => rfl⟩

/-- C3: every declared policy (trait or action, in declaration order) is
evaluated exactly once by `ExecuteAllPolicies`, unconditionally — in
particular no failing policy prevents any other policy from being
evaluated: the evaluation trace is exactly the list of declared policies,
with no hypothesis on triggers, presence, or action outcomes. -/
theorem executeAllPolicies_evaluates_every_policy_once
    (pm : PolicyManager) (ctx : GoCtx) (msg : Msg) :
    (pm.ExecuteAllPolicies ctx msg).trace =
      pm.traitPolicies.map (fun p => p.field.path) ++
        pm.actionPolicies.map (fun p => p.field.path) := by
  simp only [PolicyManager.ExecuteAllPolicies, foldl_faults_trace]
  simp

/-- C8: `Evaluate` never invokes the post-validation hook: its result is
unaffected by whatever `postAction` is set, for every Subject, context and
range order. -/
theorem evaluate_independent_of_postAction (s : Subject) (ctx : GoCtx)
    (iter : FaultMap → FaultMap) (a : Option Action) :
    ({ s with postAction := a }).EvaluateWith ctx iter = s.EvaluateWith ctx iter ∧
    ({ s with postAction := a }).Evaluate ctx = s.Evaluate ctx :=
  ⟨rfl, rfl⟩

/-- C4 counterexample: on a Subject whose pre-validation hook fails and
whose fault handler is unset, the collected fault list is the non-empty
singleton request fault, yet `Evaluate` does not return any error value at
all — it panics on the nil handler interface. -/
theorem evaluate_nonempty_faults_but_no_error_returned :
    c4Subject.init 0 = some (RequestFault "boom") ∧
    c4Subject.EvaluateWith 0 id = .panicked :=
  ⟨rfl, rfl⟩

/-- C4 (amended): whenever the pre-validation hook does not fail and no
custom fault handler is set, `Evaluate` returns nil exactly when the
collected fault list is empty, and a non-empty collection yields exactly
the one error value the default fault handler builds from the full list. -/
theorem evaluate_nil_iff_no_faults (s : Subject) (ctx : GoCtx)
    (iter : FaultMap → FaultMap) (hfh : s.fh = none) (hinit : s.init ctx = none) :
    (s.EvaluateWith ctx iter = .ok none ↔ s.collectedFaults ctx iter = []) ∧
    (s.collectedFaults ctx iter ≠ [] →
      s.EvaluateWith ctx iter
        = .ok (defaultFaultHandler (s.collectedFaults ctx iter))) := by
  have he := evaluateWith_eq_of_init_eq_none s ctx iter hinit
  constructor
  · rw [he]
    simp only [EvalResult.ok.injEq]
    exact err_eq_none_iff s hfh _
  · intro hne
    have hl : ¬ (s.collectedFaults ctx iter).length = 0 := by
      simpa [List.length_eq_zero] using hne
    rw [he]
    simp [Subject.err, hfh, hl]

/-- C4 witness: a concrete Subject with one field fault (non-zero supplied
value, path absent from the empty message). -/
theorem evaluate_nil_iff_no_faults_witness :
    c4WitnessSubject.fh = none ∧ c4WitnessSubject.init 0 = none ∧
    ((c4WitnessSubject.EvaluateWith 0 id = .ok none ↔
        c4WitnessSubject.collectedFaults 0 id = []) ∧
      (c4WitnessSubject.collectedFaults 0 id ≠ [] →
        c4WitnessSubject.EvaluateWith 0 id
          = .ok (defaultFaultHandler (c4WitnessSubject.collectedFaults 0 id)))) :=
  ⟨rfl, rfl, evaluate_nil_iff_no_faults c4WitnessSubject 0 id rfl rfl⟩

/-- C5: the success hook is consulted only when the policies produced zero
field faults — with a non-empty fault map the result does not depend on the
hook at all — and when it runs and fails, its error becomes the single
request-scoped fault handed to the handler, so `Evaluate` is non-nil and no
already-passed field check is retroactively failed. -/
theorem onSuccess_only_after_clean_policies (s : Subject) (ctx : GoCtx)
    (iter : FaultMap → FaultMap) (hfh : s.fh = none) (hinit : s.init ctx = none) :
    (iter ((s.pm.ExecuteAllPolicies ctx s.message).faults) ≠ [] →
      ∀ a : Option Action,
        ({ s with successAction := a }).EvaluateWith ctx iter
          = s.EvaluateWith ctx iter) ∧
    (iter ((s.pm.ExecuteAllPolicies ctx s.message).faults) = [] →
      ∀ act : Action, ∀ e : Err, s.successAction = some act →
        act ctx s.message = some e →
        s.EvaluateWith ctx iter = .ok (defaultFaultHandler [RequestFault e]) ∧
          s.EvaluateWith ctx iter ≠ .ok none) := by
  constructor
  · intro hne a
    have hinit2 : ({ s with successAction := a } : Subject).init ctx = none := hinit
    rw [evaluateWith_eq_of_init_eq_none _ ctx iter hinit2,
      evaluateWith_eq_of_init_eq_none s ctx iter hinit]
    have hfe : ((iter ((s.pm.ExecuteAllPolicies ctx s.message).faults)).map
        (fun kv => FieldFault kv.1 kv.2)).isEmpty = false := by
      rcases hiter : iter ((s.pm.ExecuteAllPolicies ctx s.message).faults) with _ | ⟨x, xs⟩
      · exact absurd hiter hne
      · simp
    simp only [Subject.collectedFaults, Subject.err, hfe]
    simp
  · intro hem act e hact hacte
    have hcf : s.collectedFaults ctx iter = [RequestFault e] := by
      simp only [Subject.collectedFaults, hem, List.map_nil, List.isEmpty_nil,
        if_true, Subject.onSuccess, hact, hacte]
    rw [evaluateWith_eq_of_init_eq_none s ctx iter hinit, hcf]
    constructor
    · simp [Subject.err, hfh]
    · simp [Subject.err, hfh, defaultFaultHandler]

/-- C5 witness: a concrete Subject with no field faults and a failing
success hook. -/
theorem onSuccess_only_after_clean_policies_witness :
    c5WitnessSubject.fh = none ∧ c5WitnessSubject.init 0 = none ∧
    ((id ((c5WitnessSubject.pm.ExecuteAllPolicies 0 c5WitnessSubject.message).faults) ≠ [] →
      ∀ a : Option Action,
        ({ c5WitnessSubject with successAction := a }).EvaluateWith 0 id
          = c5WitnessSubject.EvaluateWith 0 id) ∧
    (id ((c5WitnessSubject.pm.ExecuteAllPolicies 0 c5WitnessSubject.message).faults) = [] →
      ∀ act : Action, ∀ e : Err, c5WitnessSubject.successAction = some act →
        act 0 c5WitnessSubject.message = some e →
        c5WitnessSubject.EvaluateWith 0 id
            = .ok (defaultFaultHandler [RequestFault e]) ∧
          c5WitnessSubject.EvaluateWith 0 id ≠ .ok none)) :=
  ⟨rfl, rfl, onSuccess_only_after_clean_policies c5WitnessSubject 0 id rfl rfl⟩

/-- C6: for rules declared without a value, the recorded presence is
determined purely by the path resolver walking the live message:
`AssertCustom` and `AssertCustomWhenInMask` store a field whose `isSet` is
exactly `s.fieldProcessor path s.message`, for every Subject, path and
action; `ForSubject` wires the resolver as that field processor. -/
theorem assertCustom_presence_from_resolver (s : Subject) (path : String) (act : Action) :
    (s.AssertCustom path act).pm.actionPolicies =
      s.pm.actionPolicies ++
        [NewActionPolicy .mustBeSet
          (NewField path .nil (s.isFieldInMask path) (s.fieldProcessor path s.message))
          act] ∧
    (s.AssertCustomWhenInMask path act).pm.actionPolicies =
      s.pm.actionPolicies ++
        [NewActionPolicy .mustBeSetIfInMask
          (NewField path .nil (s.isFieldInMask path) (s.fieldProcessor path s.message))
          act] ∧
    (∀ m : Msg, ∀ mask : List String,
      (ForSubject m mask).fieldProcessor = fieldProcessorIsFieldSet) :=
  ⟨rfl, rfl, fun _ _ => rfl⟩

/-- C7 counterexample: on one concrete Subject with two field faults, two
admissible range orders over the same fault map yield different aggregate
error content, so two `Evaluate` calls on identically constructed Subjects
need not return equal results. -/
theorem evaluate_aggregate_error_depends_on_range_order :
    (List.reverse ((c7Subject.pm.ExecuteAllPolicies 0 c7Subject.message).faults)).Perm
      ((c7Subject.pm.ExecuteAllPolicies 0 c7Subject.message).faults) ∧
    c7Subject.EvaluateWith 0 List.reverse ≠ c7Subject.EvaluateWith 0 id :=
  ⟨by decide, by decide⟩

/-- C7 (amended): with no custom fault handler, two `Evaluate` calls on the
same constructed Subject under any two admissible range orders agree up to
the ordering of the field faults: the collected fault lists are
permutations of each other, and the two results are nil together. -/
theorem evaluate_deterministic_up_to_fault_order (s : Subject) (ctx : GoCtx)
    (iter1 iter2 : FaultMap → FaultMap) (hfh : s.fh = none)
    (h1 : (iter1 ((s.pm.ExecuteAllPolicies ctx s.message).faults)).Perm
        ((s.pm.ExecuteAllPolicies ctx s.message).faults))
    (h2 : (iter2 ((s.pm.ExecuteAllPolicies ctx s.message).faults)).Perm
        ((s.pm.ExecuteAllPolicies ctx s.message).faults)) :
    (s.collectedFaults ctx iter1).Perm (s.collectedFaults ctx iter2) ∧
    (s.EvaluateWith ctx iter1 = .ok none ↔ s.EvaluateWith ctx iter2 = .ok none) := by
  have h12 := h1.trans h2.symm
  have hperm : (s.collectedFaults ctx iter1).Perm (s.collectedFaults ctx iter2) := by
    simp only [Subject.collectedFaults]
    rcases hx : iter1 ((s.pm.ExecuteAllPolicies ctx s.message).faults) with _ | ⟨x, xs⟩
    · rw [hx] at h12
      have hy : iter2 ((s.pm.ExecuteAllPolicies ctx s.message).faults) = [] :=
        h12.symm.eq_nil
      rw [hy]
    · rw [hx] at h12
      rcases hy : iter2 ((s.pm.ExecuteAllPolicies ctx s.message).faults) with _ | ⟨y, ys⟩
      · rw [hy] at h12
        exact absurd h12.eq_nil (by simp)
      · rw [hy] at h12
        simpa using h12.map (fun kv => FieldFault kv.1 kv.2)
  refine ⟨hperm, ?_⟩
  rcases hi : s.init ctx with _ | f
  · rw [evaluateWith_eq_of_init_eq_none s ctx iter1 hi,
      evaluateWith_eq_of_init_eq_none s ctx iter2 hi]
    simp only [EvalResult.ok.injEq]
    rw [err_eq_none_iff s hfh, err_eq_none_iff s hfh]
    constructor
    · intro hcf
      rw [hcf] at hperm
      exact hperm.symm.eq_nil
    · intro hcf
      rw [hcf] at hperm
      exact hperm.eq_nil
  · unfold Subject.EvaluateWith
    rw [hi, hfh]

/-- C7 witness for the amended statement, at the two-fault Subject with the
identity and the reversing range orders. -/
theorem evaluate_deterministic_up_to_fault_order_witness :
    c7Subject.fh = none ∧
    (id ((c7Subject.pm.ExecuteAllPolicies 0 c7Subject.message).faults)).Perm
      ((c7Subject.pm.ExecuteAllPolicies 0 c7Subject.message).faults) ∧
    (List.reverse ((c7Subject.pm.ExecuteAllPolicies 0 c7Subject.message).faults)).Perm
      ((c7Subject.pm.ExecuteAllPolicies 0 c7Subject.message).faults) ∧
    ((c7Subject.collectedFaults 0 id).Perm (c7Subject.collectedFaults 0 List.reverse) ∧
      (c7Subject.EvaluateWith 0 id = .ok none ↔
        c7Subject.EvaluateWith 0 List.reverse = .ok none)) :=
  ⟨rfl, by decide, by decide,
    evaluate_deterministic_up_to_fault_order c7Subject 0 id List.reverse rfl
      (by decide) (by decide)⟩

/-- C9: mask membership depends only on the set of supplied mask paths: two
masks with the same members (in particular a permutation or a duplication
of one another) give the same `isFieldInMask` verdict on every path. -/
theorem isFieldInMask_invariant_under_mask_set (m : Msg) (l1 l2 : List String)
    (path : String) (h : ∀ x : String, x ∈ l1 ↔ x ∈ l2) :
    (ForSubject m l1).isFieldInMask path = (ForSubject m l2).isFieldInMask path := by
  rcases l1 with _ | ⟨a, t1⟩ <;> rcases l2 with _ | ⟨b, t2⟩
  · rfl
  · exact absurd ((h b).mpr (List.mem_cons_self b t2)) (List.not_mem_nil b)
  · exact absurd ((h a).mp (List.mem_cons_self a t1)) (List.not_mem_nil a)
  · show (a :: t1).contains path = (b :: t2).contains path
    unfold List.contains
    simp only [List.elem_eq_mem]
    exact decide_eq_decide.mpr (h path)

/-- C9 witness: a duplicated and permuted mask gives the same verdict. -/
theorem isFieldInMask_invariant_under_mask_set_witness :
    (∀ x : String, x ∈ ["a", "b", "a"] ↔ x ∈ ["b", "a"]) ∧
      (ForSubject [] ["a", "b", "a"]).isFieldInMask "a"
        = (ForSubject [] ["b", "a"]).isFieldInMask "a" := by
  have h : ∀ x : String, x ∈ ["a", "b", "a"] ↔ x ∈ ["b", "a"] := by
    intro x
    simp only [List.mem_cons, List.not_mem_nil, or_false]
    tauto
  exact ⟨h, isFieldInMask_invariant_under_mask_set [] ["a", "b", "a"] ["b", "a"] "a" h⟩

/-- C10: with no mask paths supplied, `isFieldInMask` is false on every
path, so the when-in-mask builders record `inMask = false`, the
`MustBeSetIfInMask` trigger condition never holds for the stored field, and
executing such a policy leaves the fault map unchanged (in particular the
custom action is never invoked). -/
theorem whenInMask_rules_inert_without_mask (m : Msg) (q : String) (s : Subject)
    (hs : s.paths = none) (path : String) (v : GoValue) (act : Action)
    (ctx : GoCtx) (msg2 : Msg) (fm : FaultMap) :
    (ForSubject m []).isFieldInMask q = false ∧
    (ForSubject m []).paths = none ∧
    s.isFieldInMask path = false ∧
    (s.AssertNonZeroWhenInMask path v).pm.traitPolicies =
      s.pm.traitPolicies ++
        [NewPolicy .mustBeSetIfInMask (NewField path v false (s.isFieldSet v path false))] ∧
    (s.AssertCustomWhenInMask path act).pm.actionPolicies =
      s.pm.actionPolicies ++
        [NewActionPolicy .mustBeSetIfInMask
          (NewField path .nil false (s.isFieldSet .nil path true)) act] ∧
    Trigger.holds .mustBeSetIfInMask
      (NewField path v false (s.isFieldSet v path false)) = false ∧
    execTraitPolicy fm
      (NewPolicy .mustBeSetIfInMask (NewField path v false (s.isFieldSet v path false)))
        = fm ∧
    execActionPolicy ctx msg2 fm
      (NewActionPolicy .mustBeSetIfInMask
        (NewField path .nil false (s.isFieldSet .nil path true)) act) = fm := by
  have hm : s.isFieldInMask path = false := by
    unfold Subject.isFieldInMask
    rw [hs]
  refine ⟨rfl, rfl, hm, ?_, ?_, rfl, rfl, rfl⟩
  · unfold Subject.AssertNonZeroWhenInMask
    rw [hm]
    rfl
  · unfold Subject.AssertCustomWhenInMask
    rw [hm]
    rfl

/-- C10 witness at a concrete maskless Subject. -/
theorem whenInMask_rules_inert_without_mask_witness :
    (ForSubject [] []).paths = none ∧
    ((ForSubject [] []).isFieldInMask "q" = false ∧
      (ForSubject [] []).paths = none ∧
      (ForSubject [] []).isFieldInMask "user.last_name" = false ∧
      ((ForSubject [] []).AssertNonZeroWhenInMask "user.last_name" (.str "")).pm.traitPolicies =
        (ForSubject [] []).pm.traitPolicies ++
          [NewPolicy .mustBeSetIfInMask
            (NewField "user.last_name" (.str "") false
              ((ForSubject [] []).isFieldSet (.str "") "user.last_name" false))] ∧
      ((ForSubject [] []).AssertCustomWhenInMask "user.last_name"
          (fun _ _ => some "e")).pm.actionPolicies =
        (ForSubject [] []).pm.actionPolicies ++
          [NewActionPolicy .mustBeSetIfInMask
            (NewField "user.last_name" .nil false
              ((ForSubject [] []).isFieldSet .nil "user.last_name" true))
            (fun _ _ => some "e")] ∧
      Trigger.holds .mustBeSetIfInMask
        (NewField "user.last_name" (.str "") false
          ((ForSubject [] []).isFieldSet (.str "") "user.last_name" false)) = false ∧
      execTraitPolicy []
        (NewPolicy .mustBeSetIfInMask
          (NewField "user.last_name" (.str "") false
            ((ForSubject [] []).isFieldSet (.str "") "user.last_name" false))) = [] ∧
      execActionPolicy 0 [] []
        (NewActionPolicy .mustBeSetIfInMask
          (NewField "user.last_name" .nil false
            ((ForSubject [] []).isFieldSet .nil "user.last_name" true))
          (fun _ _ => some "e")) = []) :=
  ⟨rfl, whenInMask_rules_inert_without_mask [] "q" (ForSubject [] []) rfl
    "user.last_name" (.str "") (fun _ _ => some "e") 0 [] []⟩

end Soldr
